import Mathlib

/-!
Verification of the image compositing and overlay pipeline of the
ShinagawaPrinceHotel-AR repository: the pixel-pass filter engine
(filter.js), the capture compositor (capture.js) and the face-decoration
smoothing engine (face-filter.js), shallowly embedded over exact rational
arithmetic.
-/

namespace ShinagawaAR

/-! ## Numeric primitives of the JS host

`jsRound` models `Math.round` (half away from zero toward +infinity, i.e.
`floor(x + 0.5)`); `roundTiesEven` models the rounding performed when a
number is stored into a `Uint8ClampedArray` element (ties to even);
`storeClamp` is the full `ToUint8Clamp` conversion: clamp to [0,255],
then round ties-to-even. -/

def jsRound (q : ℚ) : ℤ := ⌊q + 1/2⌋

def roundTiesEven (q : ℚ) : ℤ :=
  if q - ⌊q⌋ < 1/2 then ⌊q⌋
  else if 1/2 < q - ⌊q⌋ then ⌊q⌋ + 1
  else if ⌊q⌋ % 2 = 0 then ⌊q⌋ else ⌊q⌋ + 1

def clampQ (q : ℚ) : ℚ := max 0 (min 255 q)

def storeClamp (q : ℚ) : ℤ := roundTiesEven (clampQ q)

lemma jsRound_le_add_half (q : ℚ) : (jsRound q : ℚ) ≤ q + 1/2 :=
  Int.floor_le _

lemma sub_half_lt_jsRound (q : ℚ) : q - 1/2 < (jsRound q : ℚ) := by
  have h := Int.sub_one_lt_floor (q + 1/2)
  unfold jsRound
  linarith

lemma abs_jsRound_sub_le (q : ℚ) : |(jsRound q : ℚ) - q| ≤ 1/2 := by
  have h1 := jsRound_le_add_half q
  have h2 := sub_half_lt_jsRound q
  rw [abs_le]
  constructor <;> linarith

lemma jsRound_intCast (n : ℤ) : jsRound (n : ℚ) = n := by
  unfold jsRound
  rw [Int.floor_int_add]
  norm_num

lemma jsRound_mono {q r : ℚ} (h : q ≤ r) : jsRound q ≤ jsRound r :=
  Int.floor_le_floor (by linarith)

lemma jsRound_le_of_le {q : ℚ} {n : ℤ} (h : q ≤ (n : ℚ)) : jsRound q ≤ n := by
  have := jsRound_mono h
  rwa [jsRound_intCast] at this

lemma floor_le_roundTiesEven (q : ℚ) : ⌊q⌋ ≤ roundTiesEven q := by
  unfold roundTiesEven
  split_ifs <;> omega

lemma roundTiesEven_le_add_half (q : ℚ) : (roundTiesEven q : ℚ) ≤ q + 1/2 := by
  have hf := Int.floor_le q
  unfold roundTiesEven
  split_ifs with h1 h2 h3 <;> push_cast <;> linarith

lemma clampQ_nonneg (q : ℚ) : 0 ≤ clampQ q := le_max_left _ _

lemma clampQ_le (q : ℚ) : clampQ q ≤ 255 :=
  max_le (by norm_num) (min_le_left _ _)

lemma storeClamp_nonneg (q : ℚ) : 0 ≤ storeClamp q := by
  have h0 : (0 : ℤ) ≤ ⌊clampQ q⌋ := Int.floor_nonneg.2 (clampQ_nonneg q)
  exact le_trans h0 (floor_le_roundTiesEven _)

lemma storeClamp_le (q : ℚ) : storeClamp q ≤ 255 := by
  have h1 : clampQ q ≤ 255 := clampQ_le q
  have h2 : (roundTiesEven (clampQ q) : ℚ) ≤ clampQ q + 1/2 :=
    roundTiesEven_le_add_half _
  have h3 : (storeClamp q : ℚ) < 256 := by
    unfold storeClamp
    linarith
  have h4 : storeClamp q < 256 := by exact_mod_cast h3
  omega

/-! ## Pixel surfaces

`Img` models a canvas `ImageData` buffer of RGBA bytes: a width, a
height, and per-coordinate pixel values.  Channel values are integers;
all writes performed by the pixel passes go through `storeClamp`
(Uint8ClampedArray store semantics). -/

structure Pixel where
  r : ℤ
  g : ℤ
  b : ℤ
  a : ℤ
deriving DecidableEq, Repr

structure Img where
  w : ℕ
  h : ℕ
  px : ℕ → ℕ → Pixel

def pixInRange (p : Pixel) : Prop :=
  0 ≤ p.r ∧ p.r ≤ 255 ∧ 0 ≤ p.g ∧ p.g ≤ 255 ∧
  0 ≤ p.b ∧ p.b ≤ 255 ∧ 0 ≤ p.a ∧ p.a ≤ 255

def imgInRange (img : Img) : Prop := ∀ x y, pixInRange (img.px x y)

def grayImg (v : ℤ) (w h : ℕ) : Img := ⟨w, h, fun _ _ => ⟨v, v, v, 255⟩⟩

def allBlack (w h : ℕ) : Img := grayImg 0 w h

def allWhite (w h : ℕ) : Img := grayImg 255 w h

lemma grayImg_inRange {v : ℤ} (h0 : 0 ≤ v) (h255 : v ≤ 255) (w h : ℕ) :
    imgInRange (grayImg v w h) := by
  intro x y
  refine ⟨h0, h255, h0, h255, h0, h255, ?_, ?_⟩ <;> norm_num [grayImg]

/-! ## Pixel-pass filters (filter.js)

Embeddings of `applyGrain`, `applyVignette`, `applyGlow`,
`applyWatercolor`, `applySketch`.  `Math.random()` is modelled as an
explicit stream `rnd : ℕ → ℚ` of values in [0,1); the pixel at (x,y) of
a w-wide image has linear index `y*w + x` (the row-major order of the
`data` array).  `Math.sqrt` and the canvas `blur` filter are external
primitives and enter as parameters. -/

def grainChannel (c : ℤ) (noise : ℚ) : ℤ := storeClamp ((c : ℚ) + noise)

def grainPixel (p : Pixel) (intensity : ℚ) (colorGrain : Bool)
    (rnd : ℕ → ℚ) (k : ℕ) : Pixel :=
  if colorGrain then
    let base := (rnd (4 * k) - 1/2) * intensity * 2
    { r := grainChannel p.r (base + (rnd (4 * k + 1) - 1/2) * intensity * (6/10)),
      g := grainChannel p.g (base + (rnd (4 * k + 2) - 1/2) * intensity * (6/10)),
      b := grainChannel p.b (base + (rnd (4 * k + 3) - 1/2) * intensity * (6/10)),
      a := p.a }
  else
    let base := (rnd k - 1/2) * intensity * 2
    { r := grainChannel p.r base,
      g := grainChannel p.g base,
      b := grainChannel p.b base,
      a := p.a }

def applyGrain (img : Img) (intensity : ℚ) (colorGrain : Bool)
    (rnd : ℕ → ℚ) : Img :=
  { img with px := fun x y =>
      if x < img.w ∧ y < img.h then
        grainPixel (img.px x y) intensity colorGrain rnd (y * img.w + x)
      else img.px x y }

/-- Modelled from the spec: "adds independent random noise in
[-intensity, +intensity] to each channel per pixel" — the default
(non-color-grain) grain mode as the spec describes it, with one
independent draw per channel (channel j of pixel k consumes draw
`3*k + j`).  Used only to compare against the source-derived
`applyGrain`. -/
def applyGrainSpecIndependent (img : Img) (intensity : ℚ)
    (rnd : ℕ → ℚ) : Img :=
  { img with px := fun x y =>
      if x < img.w ∧ y < img.h then
        let k := y * img.w + x
        let p := img.px x y
        { r := grainChannel p.r ((rnd (3 * k) - 1/2) * intensity * 2),
          g := grainChannel p.g ((rnd (3 * k + 1) - 1/2) * intensity * 2),
          b := grainChannel p.b ((rnd (3 * k + 2) - 1/2) * intensity * 2),
          a := p.a }
      else img.px x y }

def vignetteAlpha (w h : ℕ) (strength : ℚ) (sqrtQ : ℚ → ℚ)
    (x y : ℕ) : ℚ :=
  let cx : ℚ := (w : ℚ) / 2
  let cy : ℚ := (h : ℚ) / 2
  let inner := min cx cy * (1/2)
  let outer := sqrtQ (cx * cx + cy * cy) * (105/100)
  let dx := (x : ℚ) + 1/2 - cx
  let dy := (y : ℚ) + 1/2 - cy
  let d := sqrtQ (dx * dx + dy * dy)
  let t := max 0 (min 1 ((d - inner) / (outer - inner)))
  max 0 (min 1 strength) * t

def vignettePixel (p : Pixel) (alpha : ℚ) : Pixel :=
  { r := storeClamp ((p.r : ℚ) * (1 - alpha)),
    g := storeClamp ((p.g : ℚ) * (1 - alpha)),
    b := storeClamp ((p.b : ℚ) * (1 - alpha)),
    a := storeClamp ((p.a : ℚ) + (255 - (p.a : ℚ)) * alpha) }

def applyVignette (img : Img) (strength : ℚ) (sqrtQ : ℚ → ℚ) : Img :=
  { img with px := fun x y =>
      if x < img.w ∧ y < img.h then
        vignettePixel (img.px x y) (vignetteAlpha img.w img.h strength sqrtQ x y)
      else img.px x y }

def screenBlend (d s : ℚ) : ℚ := 255 - (255 - d) * (255 - s) / 255

def glowChannel (d s : ℤ) (galpha : ℚ) : ℤ :=
  storeClamp ((1 - galpha) * (d : ℚ) + galpha * screenBlend d s)

def glowLayer (img : Img) (src : Img) (galpha : ℚ) : Img :=
  { img with px := fun x y =>
      if x < img.w ∧ y < img.h then
        let d := img.px x y
        let s := src.px x y
        { r := glowChannel d.r s.r galpha,
          g := glowChannel d.g s.g galpha,
          b := glowChannel d.b s.b galpha,
          a := storeClamp ((d.a : ℚ) + (255 - (d.a : ℚ)) * (galpha * (s.a : ℚ) / 255)) }
      else img.px x y }

def applyGlow (img : Img) (b1 b2 b3 : Img → Img) : Img :=
  let l1 := glowLayer img (b1 img) (45/100)
  let l2 := glowLayer l1 (b2 img) (32/100)
  glowLayer l2 (b3 img) (18/100)

def wcChannel (c : ℤ) (avg : ℚ) : ℤ :=
  max 0 (min 255 (jsRound (avg + ((c : ℚ) - avg) * (19/10))))

def wcPixel (p : Pixel) : Pixel :=
  let avg := ((p.r : ℚ) + p.g + p.b) / 3
  { r := wcChannel p.r avg, g := wcChannel p.g avg, b := wcChannel p.b avg,
    a := p.a }

def applyWatercolor (img : Img) (blur5 : Img → Img) (rnd : ℕ → ℚ) : Img :=
  let blurred := blur5 img
  let sat : Img := ⟨blurred.w, blurred.h, fun x y =>
      if x < blurred.w ∧ y < blurred.h then wcPixel (blurred.px x y)
      else blurred.px x y⟩
  applyGrain sat 7 false rnd

def sketchGray (p : Pixel) : ℚ := ((p.r : ℚ) + p.g + p.b) / 3

def sketchVal (img : Img) (sqrtQ : ℚ → ℚ) (x y : ℕ) : ℤ :=
  let tl := sketchGray (img.px (x - 1) (y - 1))
  let tc := sketchGray (img.px x (y - 1))
  let tr := sketchGray (img.px (x + 1) (y - 1))
  let ml := sketchGray (img.px (x - 1) y)
  let mr := sketchGray (img.px (x + 1) y)
  let bl := sketchGray (img.px (x - 1) (y + 1))
  let bc := sketchGray (img.px x (y + 1))
  let br := sketchGray (img.px (x + 1) (y + 1))
  let gx := -tl - 2 * ml - bl + tr + 2 * mr + br
  let gy := -tl - 2 * tc - tr + bl + 2 * bc + br
  let edge := min 255 (sqrtQ (gx * gx + gy * gy) * (16/10))
  storeClamp (max 0 (255 - edge * (28/10)))

def applySketch (img : Img) (sqrtQ : ℚ → ℚ) : Img :=
  { img with px := fun x y =>
      if 1 ≤ x ∧ x < img.w - 1 ∧ 1 ≤ y ∧ y < img.h - 1 then
        let v := sketchVal img sqrtQ x y
        { r := v, g := v, b := v, a := (img.px x y).a }
      else img.px x y }

/-! ## Capture compositor (capture.js, `captureImage`)

`captureCrop` embeds the 4:3 crop-rectangle and output-size computation;
`captureImage` embeds the control flow of the layered composition: which
drawing steps abort the whole capture (outer `try`/`catch`) and which
are swallowed locally (inner `try { } catch (_) {}`). -/

structure CropResult where
  srcX : ℤ
  srcY : ℤ
  srcW : ℤ
  srcH : ℤ
  outW : ℤ
  outH : ℤ
deriving DecidableEq, Repr

def cropScale (srcW srcH : ℤ) : ℚ :=
  min (1920 / (srcW : ℚ)) (min (1920 / (srcH : ℚ)) 1)

def captureCrop (videoW videoH : ℕ) : CropResult :=
  let W : ℚ := videoW
  let H : ℚ := videoH
  if (4 : ℚ) / 3 < W / H then
    let srcH : ℤ := videoH
    let srcW : ℤ := jsRound (H * ((4 : ℚ) / 3))
    let scale := cropScale srcW srcH
    { srcX := jsRound ((W - (srcW : ℚ)) / 2), srcY := 0,
      srcW := srcW, srcH := srcH,
      outW := jsRound ((srcW : ℚ) * scale), outH := jsRound ((srcH : ℚ) * scale) }
  else
    let srcW : ℤ := videoW
    let srcH : ℤ := jsRound (W / ((4 : ℚ) / 3))
    let scale := cropScale srcW srcH
    { srcX := 0, srcY := jsRound ((H - (srcH : ℚ)) / 2),
      srcW := srcW, srcH := srcH,
      outW := jsRound ((srcW : ℚ) * scale), outH := jsRound ((srcH : ℚ) * scale) }

structure CaptureEnv where
  videoW : ℕ
  videoH : ℕ
  hasApplyFn : Bool
  frameLoaded : Bool
  cameraThrows : Bool
  pixelThrows : Bool
  faceThrows : Bool
  frameThrows : Bool
  messageThrows : Bool
  transferThrows : Bool
  shutterThrows : Bool

structure CaptureOutcome where
  notReadyAlert : Bool
  failAlert : Bool
  cameraDrawn : Bool
  pixelApplied : Bool
  faceDrawn : Bool
  frameDrawn : Bool
  messageDrawn : Bool
  resultResized : Bool
  shown : Bool
deriving DecidableEq, Repr

def captureImage (e : CaptureEnv) : CaptureOutcome :=
  if e.videoW = 0 ∨ e.videoH = 0 then
    { notReadyAlert := true, failAlert := false, cameraDrawn := false,
      pixelApplied := false, faceDrawn := false, frameDrawn := false,
      messageDrawn := false, resultResized := false, shown := false }
  else if e.cameraThrows then
    { notReadyAlert := false, failAlert := true, cameraDrawn := false,
      pixelApplied := false, faceDrawn := false, frameDrawn := false,
      messageDrawn := false, resultResized := false, shown := false }
  else if e.hasApplyFn && e.pixelThrows then
    { notReadyAlert := false, failAlert := true, cameraDrawn := true,
      pixelApplied := false, faceDrawn := false, frameDrawn := false,
      messageDrawn := false, resultResized := false, shown := false }
  else if e.transferThrows then
    { notReadyAlert := false, failAlert := true, cameraDrawn := true,
      pixelApplied := e.hasApplyFn, faceDrawn := !e.faceThrows,
      frameDrawn := e.frameLoaded && !e.frameThrows,
      messageDrawn := !e.messageThrows, resultResized := true, shown := false }
  else
    { notReadyAlert := false, failAlert := false, cameraDrawn := true,
      pixelApplied := e.hasApplyFn, faceDrawn := !e.faceThrows,
      frameDrawn := e.frameLoaded && !e.frameThrows,
      messageDrawn := !e.messageThrows, resultResized := true, shown := true }

/-! ## Caption block (capture.js, `drawMessageOnCanvas`)

The caption renderer is embedded as a function from the message
configuration to the list of drawing commands it issues; an empty list
means the step draws nothing.  `new Date(value)` and its `isNaN` check
are modelled by an abstract parser `parse : String → Option JsDate`. -/

structure MsgField where
  enabled : Bool
  value : String
deriving DecidableEq, Repr

structure MessageConfig where
  date : MsgField
  text : MsgField
  location : MsgField
deriving DecidableEq, Repr

structure JsDate where
  year : ℤ
  month : ℕ
  day : ℕ
deriving DecidableEq, Repr

def formatDate (d : JsDate) : String :=
  toString d.year ++ "年" ++ toString (d.month + 1) ++ "月" ++ toString d.day ++ "日"

def hasDateLine (cfg : MessageConfig) : Prop :=
  cfg.date.enabled = true ∧ cfg.date.value ≠ ""

def hasTextLine (cfg : MessageConfig) : Prop :=
  cfg.text.enabled = true ∧ cfg.text.value ≠ ""

def hasLocationLine (cfg : MessageConfig) : Prop :=
  cfg.location.enabled = true ∧ cfg.location.value ≠ ""

instance (cfg : MessageConfig) : Decidable (hasDateLine cfg) := by
  unfold hasDateLine; infer_instance

instance (cfg : MessageConfig) : Decidable (hasTextLine cfg) := by
  unfold hasTextLine; infer_instance

instance (cfg : MessageConfig) : Decidable (hasLocationLine cfg) := by
  unfold hasLocationLine; infer_instance

def captionLines (cfg : MessageConfig) (parse : String → Option JsDate) :
    List String :=
  (if hasDateLine cfg then
    match parse cfg.date.value with
    | some d => [formatDate d]
    | none => []
  else []) ++
  (if hasTextLine cfg then [cfg.text.value] else []) ++
  (if hasLocationLine cfg then [cfg.location.value] else [])

inductive DrawCmd where
  | panel (x y w h radius : ℚ) (fill : String)
  | borderStroke (color : String) (lineWidth : ℚ)
  | textShadow (s : String) (x y : ℚ) (color : String) (fontPx : ℤ)
  | textMain (s : String) (x y : ℚ) (color : String) (fontPx : ℤ)
deriving DecidableEq, Repr

def captionTextCmds (lines : List String) (width : ℚ) (boxY : ℚ)
    (baseFontSize : ℤ) (lineH : ℚ) : List DrawCmd :=
  (lines.enum.map (fun p =>
    let y := boxY + (baseFontSize : ℚ) * (9/10) + ((p.1 : ℚ) + 1/2) * lineH
    [DrawCmd.textShadow p.2 (width / 2 + 1) (y + 1) "rgba(0,0,0,0.6)" baseFontSize,
     DrawCmd.textMain p.2 (width / 2) y
       (if p.1 = 0 then "#D4AF37" else "#FAF9F6") baseFontSize])).flatten

def drawMessageOnCanvas (cfg : MessageConfig) (parse : String → Option JsDate)
    (width height : ℕ) : List DrawCmd :=
  if ¬(hasDateLine cfg ∨ hasTextLine cfg ∨ hasLocationLine cfg) then []
  else
    let baseFontSize : ℤ := jsRound ((height : ℚ) * (28/1000))
    let lineH : ℚ := (baseFontSize : ℚ) * (17/10)
    let lines := captionLines cfg parse
    if lines = [] then []
    else
      let totalH : ℚ := (lines.length : ℚ) * lineH + (baseFontSize : ℚ) * (14/10)
      let boxW : ℚ := (width : ℚ) * (88/100)
      let boxH : ℚ := totalH + (baseFontSize : ℚ)
      let boxX : ℚ := ((width : ℚ) - boxW) / 2
      let boxY : ℚ := (height : ℚ) - boxH - (height : ℚ) * (4/100)
      DrawCmd.panel boxX boxY boxW boxH 14 "rgba(26, 35, 50, 0.72)" ::
      DrawCmd.borderStroke "rgba(212, 175, 55, 0.7)" (3/2) ::
      captionTextCmds lines (width : ℚ) boxY baseFontSize lineH

def applyCmds (interp : DrawCmd → Img → Img) (cmds : List DrawCmd)
    (img : Img) : Img :=
  cmds.foldl (fun s c => interp c s) img

/-! ## Smoothing Store and detection callback (face-filter.js)

`smoothVal` embeds the exponential-moving-average store (`_s` holds
`null`/absent for an uninitialized key, both modelled as `none`;
`resetSmoothing` sets every key to `null`).  `onFaceResults` embeds the
per-cycle callback: clear the overlay, reset the store on zero
detections, otherwise smooth each detection through the fixed global key
set and draw; the per-decoration drawing routines enter as an abstract
`draw` function. -/

def SMOOTH_ALPHA : ℚ := 0.38

abbrev Smooth := String → Option ℚ

def smoothVal (s : Smooth) (k : String) (v : ℚ) : Smooth × ℚ :=
  match s k with
  | none => (fun k' => if k' = k then some v else s k', v)
  | some p =>
    let nv := p * (1 - SMOOTH_ALPHA) + v * SMOOTH_ALPHA
    (fun k' => if k' = k then some nv else s k', nv)

def resetSmoothing (_ : Smooth) : Smooth := fun _ => none

def smoothStep (alpha p v : ℚ) : ℚ := p * (1 - alpha) + v * alpha

def smoothIter (alpha s v : ℚ) : ℕ → ℚ
  | 0 => s
  | n + 1 => smoothStep alpha (smoothIter alpha s v n) v

structure Landmark where
  x : ℚ
  y : ℚ
deriving DecidableEq, Repr

structure Landmarks where
  rightEye : Landmark
  leftEye : Landmark
  nose : Landmark
  mouth : Landmark
  rightEar : Landmark
  leftEar : Landmark
deriving DecidableEq, Repr

structure Detection where
  xCenter : ℚ
  yCenter : ℚ
  width : ℚ
  height : ℚ
  landmarks : Option Landmarks
deriving DecidableEq, Repr

/-- The canonical smoothed face frame handed to every decoration
routine; `byPx` models the source's `by` (a Lean keyword). -/
structure Frame where
  bx : ℚ
  byPx : ℚ
  bw : ℚ
  bh : ℚ
  rex : ℚ
  rey : ℚ
  lex : ℚ
  ley : ℚ
  nx : ℚ
  ny : ℚ
  mx : ℚ
  my : ℚ
  eyeMidX : ℚ
  eyeMidY : ℚ
  eyeSep : ℚ
  faceTop : ℚ
  faceBot : ℚ
  faceLeft : ℚ
  faceRight : ℚ
deriving DecidableEq, Repr

def processDetection (W H : ℚ) (s : Smooth) (d : Detection) :
    Smooth × Frame :=
  let rBx := d.xCenter * W
  let rBy := d.yCenter * H
  let rBw := d.width * W
  let rBh := d.height * H
  let rRex := match d.landmarks with
    | some lm => lm.rightEye.x * W
    | none => rBx - rBw * (2/10)
  let rRey := match d.landmarks with
    | some lm => lm.rightEye.y * H
    | none => rBy - rBh * (1/10)
  let rLex := match d.landmarks with
    | some lm => lm.leftEye.x * W
    | none => rBx + rBw * (2/10)
  let rLey := match d.landmarks with
    | some lm => lm.leftEye.y * H
    | none => rBy - rBh * (1/10)
  let rNx := match d.landmarks with
    | some lm => lm.nose.x * W
    | none => rBx
  let rNy := match d.landmarks with
    | some lm => lm.nose.y * H
    | none => rBy + rBh * (7/100)
  let rMx := match d.landmarks with
    | some lm => lm.mouth.x * W
    | none => rBx
  let rMy := match d.landmarks with
    | some lm => lm.mouth.y * H
    | none => rBy + rBh * (28/100)
  let p1 := smoothVal s "bx" rBx
  let p2 := smoothVal p1.1 "by" rBy
  let p3 := smoothVal p2.1 "bw" rBw
  let p4 := smoothVal p3.1 "bh" rBh
  let p5 := smoothVal p4.1 "rex" rRex
  let p6 := smoothVal p5.1 "rey" rRey
  let p7 := smoothVal p6.1 "lex" rLex
  let p8 := smoothVal p7.1 "ley" rLey
  let p9 := smoothVal p8.1 "nx" rNx
  let p10 := smoothVal p9.1 "ny" rNy
  let p11 := smoothVal p10.1 "mx" rMx
  let p12 := smoothVal p11.1 "my" rMy
  (p12.1,
   { bx := p1.2, byPx := p2.2, bw := p3.2, bh := p4.2,
     rex := p5.2, rey := p6.2, lex := p7.2, ley := p8.2,
     nx := p9.2, ny := p10.2, mx := p11.2, my := p12.2,
     eyeMidX := (p5.2 + p7.2) / 2, eyeMidY := (p6.2 + p8.2) / 2,
     eyeSep := |p5.2 - p7.2|,
     faceTop := p2.2 - p4.2 * (1/2), faceBot := p2.2 + p4.2 * (1/2),
     faceLeft := p1.2 - p3.2 * (1/2), faceRight := p1.2 + p3.2 * (1/2) })

def transparentPixel : Pixel := ⟨0, 0, 0, 0⟩

abbrev Overlay := ℕ → ℕ → Pixel

def clearedOverlay : Overlay := fun _ _ => transparentPixel

structure FaceState where
  overlay : Overlay
  smooth : Smooth

def onFaceResults (ctxReady : Bool) (draw : Frame → Overlay → Overlay)
    (W H : ℚ) (decorId : String) (st : FaceState)
    (dets : List Detection) : FaceState :=
  if ctxReady = false then st
  else
    let st1 : FaceState := { st with overlay := clearedOverlay }
    if dets.isEmpty then { st1 with smooth := resetSmoothing st1.smooth }
    else if decorId = "none" then st1
    else dets.foldl (fun acc d =>
      let pr := processDetection W H acc.smooth d
      { overlay := draw pr.2 acc.overlay, smooth := pr.1 }) st1

def runFaceCycles (ctxReady : Bool) (draw : Frame → Overlay → Overlay)
    (W H : ℚ) (decorId : String) (st : FaceState)
    (cycles : List (List Detection)) : FaceState :=
  cycles.foldl (onFaceResults ctxReady draw W H decorId) st

/-- The list of canonical frames produced for the detections of a single
cycle, in processing order, threading the shared smoothing state. -/
def cycleFrames (W H : ℚ) (s : Smooth) (dets : List Detection) :
    List Frame :=
  (dets.foldl (fun (acc : Smooth × List Frame) d =>
    let pr := processDetection W H acc.1 d
    (pr.1, acc.2 ++ [pr.2])) (s, [])).2

/-! ## Helper lemmas about the Smoothing Store -/

lemma smoothVal_fst_apply (s : Smooth) (k : String) (v : ℚ) (k' : String) :
    (smoothVal s k v).1 k' =
      if k' = k then some (smoothVal s k v).2 else s k' := by
  unfold smoothVal
  cases h : s k <;> simp

lemma smoothVal_snd_none {s : Smooth} {k : String} (h : s k = none) (v : ℚ) :
    (smoothVal s k v).2 = v := by
  unfold smoothVal
  rw [h]

lemma smoothVal_snd_some {s : Smooth} {k : String} {p : ℚ} (h : s k = some p)
    (v : ℚ) :
    (smoothVal s k v).2 = p * (1 - SMOOTH_ALPHA) + v * SMOOTH_ALPHA := by
  unfold smoothVal
  rw [h]

lemma processDetection_fst_bx (W H : ℚ) (s : Smooth) (d : Detection) :
    (processDetection W H s d).1 "bx" =
      some (processDetection W H s d).2.bx := by
  simp [processDetection, smoothVal_fst_apply]

lemma processDetection_snd_bx (W H : ℚ) (s : Smooth) (d : Detection) :
    (processDetection W H s d).2.bx = (smoothVal s "bx" (d.xCenter * W)).2 :=
  rfl

lemma cycleFrames_pair (W H : ℚ) (s : Smooth) (a b : Detection) :
    cycleFrames W H s [a, b] =
      [(processDetection W H s a).2,
       (processDetection W H (processDetection W H s a).1 b).2] := by
  simp [cycleFrames]

/-! ## Claim theorems -/

/-- C3: the Smoothing Store's `update` (source: `smoothVal`) returns the
raw value unchanged on an uninitialized key (first use, or any use after
`resetSmoothing` clears all keys), and otherwise returns
`previous*(1-α) + v*α` with the fixed α = 0.38, storing the returned
value as the new state for the key. -/
theorem c3_smoothing_update (s : Smooth) (k : String) (v p : ℚ) :
    SMOOTH_ALPHA = 38/100 ∧
    (s k = none →
      (smoothVal s k v).2 = v ∧ (smoothVal s k v).1 k = some v) ∧
    (s k = some p →
      (smoothVal s k v).2 = p * (1 - SMOOTH_ALPHA) + v * SMOOTH_ALPHA ∧
      (smoothVal s k v).1 k =
        some (p * (1 - SMOOTH_ALPHA) + v * SMOOTH_ALPHA)) ∧
    (smoothVal (resetSmoothing s) k v).2 = v := by
  refine ⟨by norm_num [SMOOTH_ALPHA], fun h => ?_, fun h => ?_, ?_⟩
  · rw [smoothVal_snd_none h, smoothVal_fst_apply, if_pos rfl,
      smoothVal_snd_none h]
    exact ⟨rfl, rfl⟩
  · rw [smoothVal_snd_some h, smoothVal_fst_apply, if_pos rfl,
      smoothVal_snd_some h]
    exact ⟨rfl, rfl⟩
  · exact smoothVal_snd_none rfl v

theorem c3_smoothing_update_witness :
    (smoothVal (fun _ => none) "bx" 10).2 = 10 ∧
    (smoothVal (fun _ => some 100) "bx" 10).2 =
      100 * (1 - SMOOTH_ALPHA) + 10 * SMOOTH_ALPHA ∧
    (smoothVal (resetSmoothing (fun _ => some 7)) "bx" 10).2 = 10 :=
  ⟨((c3_smoothing_update (fun _ => none) "bx" 10 0).2.1 rfl).1,
   ((c3_smoothing_update (fun _ => some 100) "bx" 10 100).2.2.1 rfl).1,
   (c3_smoothing_update (fun _ => some 7) "bx" 10 7).2.2.2⟩

/-- C4: for every α in (0,1), the exponential smoothing step contracts the
error toward a constant input `v` by the exact factor (1-α) each step
(hence the error is non-increasing and the iterated sequence converges
monotonically), and `v` is an exact fixed point; the program's
`smoothVal` performs exactly this step with α = `SMOOTH_ALPHA` on an
initialized key, so a stored value equal to `v` is returned exactly. -/
theorem c4_smoothing_convergence (alpha s v p : ℚ) (n : ℕ)
    (h0 : 0 < alpha) (h1 : alpha < 1) :
    |smoothStep alpha s v - v| = (1 - alpha) * |s - v| ∧
    |smoothStep alpha s v - v| ≤ |s - v| ∧
    |smoothIter alpha s v n - v| = (1 - alpha) ^ n * |s - v| ∧
    smoothStep alpha v v = v ∧
    (∀ (k : String) (st : Smooth), st k = some p →
      (smoothVal st k v).2 = smoothStep SMOOTH_ALPHA p v) ∧
    (∀ (k : String) (st : Smooth), st k = some v →
      (smoothVal st k v).2 = v) := by
  have hfac : ∀ q : ℚ, |smoothStep alpha q v - v| = (1 - alpha) * |q - v| := by
    intro q
    have he : smoothStep alpha q v - v = (1 - alpha) * (q - v) := by
      unfold smoothStep
      ring
    rw [he, abs_mul, abs_of_pos (by linarith : (0 : ℚ) < 1 - alpha)]
  refine ⟨hfac s, ?_, ?_, ?_, ?_, ?_⟩
  · rw [hfac s]
    have := abs_nonneg (s - v)
    nlinarith
  · induction n with
    | zero => simp [smoothIter]
    | succ m ih =>
      rw [smoothIter, hfac, ih, pow_succ]
      ring
  · unfold smoothStep
    ring
  · intro k st h
    rw [smoothVal_snd_some h]
    rfl
  · intro k st h
    rw [smoothVal_snd_some h]
    unfold SMOOTH_ALPHA
    ring

theorem c4_smoothing_convergence_witness :
    |smoothStep (1/2) 8 4 - 4| = (1 - 1/2) * |(8 : ℚ) - 4| ∧
    |smoothStep (1/2) 8 4 - 4| ≤ |(8 : ℚ) - 4| ∧
    |smoothIter (1/2) 8 4 3 - 4| = (1 - 1/2) ^ 3 * |(8 : ℚ) - 4| ∧
    smoothStep (1/2) 4 4 = 4 ∧
    (smoothVal (fun _ => some 6) "bx" 4).2 = smoothStep SMOOTH_ALPHA 6 4 ∧
    (smoothVal (fun _ => some 4) "bx" 4).2 = 4 := by
  have h := c4_smoothing_convergence (1/2) 8 4 6 3 (by norm_num) (by norm_num)
  exact ⟨h.1, h.2.1, h.2.2.1, h.2.2.2.1,
    h.2.2.2.2.1 "bx" (fun _ => some 6) rfl,
    h.2.2.2.2.2 "bx" (fun _ => some 4) rfl⟩

/-- C9: on a detection cycle with zero detections the overlay surface is
cleared to fully transparent and the Smoothing Store is reset to all
keys uninitialized; consequently any non-empty run of consecutive
zero-detection cycles leaves the overlay fully transparent and the
store empty. -/
theorem c9_zero_detections_clear (draw : Frame → Overlay → Overlay)
    (W H : ℚ) (decorId : String) (st : FaceState)
    (cycles : List (List Detection)) (hne : cycles ≠ [])
    (hall : ∀ c ∈ cycles, c = []) :
    (onFaceResults true draw W H decorId st []).overlay = clearedOverlay ∧
    (onFaceResults true draw W H decorId st []).smooth = (fun _ => none) ∧
    (runFaceCycles true draw W H decorId st cycles).overlay = clearedOverlay ∧
    (runFaceCycles true draw W H decorId st cycles).smooth = fun _ => none := by
  have hone : ∀ st' : FaceState,
      onFaceResults true draw W H decorId st' [] =
        { overlay := clearedOverlay, smooth := fun _ => none } := by
    intro st'
    rfl
  have haux : ∀ (cs : List (List Detection)) (st' : FaceState),
      cs ≠ [] → (∀ c ∈ cs, c = []) →
      runFaceCycles true draw W H decorId st' cs =
        { overlay := clearedOverlay, smooth := fun _ => none } := by
    intro cs
    induction cs with
    | nil => intro st' hne' _; exact absurd rfl hne'
    | cons c rest ih =>
      intro st' _ hall'
      have hc : c = [] := hall' c (List.mem_cons_self c rest)
      subst hc
      cases rest with
      | nil => simpa [runFaceCycles] using hone st'
      | cons c2 rest2 =>
        have step : runFaceCycles true draw W H decorId st' ([] :: c2 :: rest2) =
            runFaceCycles true draw W H decorId
              (onFaceResults true draw W H decorId st' []) (c2 :: rest2) := rfl
        rw [step]
        exact ih _ (by simp) (fun c hc => hall' c (List.mem_cons_of_mem _ hc))
  have hrun := haux cycles st hne hall
  exact ⟨by rw [hone st], by rw [hone st], by rw [hrun], by rw [hrun]⟩

theorem c9_zero_detections_clear_witness :
    (runFaceCycles true (fun _ o => o) 640 480 "crown"
      ⟨(fun _ _ => ⟨9, 9, 9, 255⟩), fun _ => some 5⟩
      [[], [], [], [], []]).overlay = clearedOverlay := by
  have h := c9_zero_detections_clear (fun _ o => o) 640 480 "crown"
    ⟨(fun _ _ => ⟨9, 9, 9, 255⟩), fun _ => some 5⟩
    [[], [], [], [], []] (by simp)
    (by intro c hc; simpa using hc)
  exact h.2.2.1

/-- C10: within a single cycle every face is smoothed through the same
global key set, so the canonical frame of the second face blends that
face's raw x-center with the first face's smoothed x-center (factor
1-α), and changing the first face's raw x-center changes the second
face's canonical frame: per-face frames are not independent across
simultaneous detections. -/
theorem c10_cross_face_smoothing (W H : ℚ) (s : Smooth) (a a' b : Detection)
    (hW : W ≠ 0) (hx : a.xCenter ≠ a'.xCenter) :
    (∀ d d' : Detection,
      cycleFrames W H s [d, d'] =
        [(processDetection W H s d).2,
         (processDetection W H (processDetection W H s d).1 d').2]) ∧
    (processDetection W H (processDetection W H s a).1 b).2.bx =
      (processDetection W H s a).2.bx * (1 - SMOOTH_ALPHA) +
        (b.xCenter * W) * SMOOTH_ALPHA ∧
    (processDetection W H (processDetection W H s a).1 b).2.bx ≠
      (processDetection W H (processDetection W H s a').1 b).2.bx := by
  have hB : ∀ d : Detection,
      (processDetection W H (processDetection W H s d).1 b).2.bx =
        (processDetection W H s d).2.bx * (1 - SMOOTH_ALPHA) +
          (b.xCenter * W) * SMOOTH_ALPHA := by
    intro d
    rw [processDetection_snd_bx,
      smoothVal_snd_some (processDetection_fst_bx W H s d) (b.xCenter * W)]
  have hA : (processDetection W H s a).2.bx ≠
      (processDetection W H s a').2.bx := by
    rw [processDetection_snd_bx, processDetection_snd_bx]
    have hraw : a.xCenter * W ≠ a'.xCenter * W := by
      intro heq
      exact hx (mul_right_cancel₀ hW heq)
    cases h : s "bx" with
    | none =>
      rw [smoothVal_snd_none h, smoothVal_snd_none h]
      exact hraw
    | some p =>
      rw [smoothVal_snd_some h, smoothVal_snd_some h]
      intro heq
      apply hraw
      have hα : SMOOTH_ALPHA ≠ 0 := by norm_num [SMOOTH_ALPHA]
      exact mul_right_cancel₀ hα (by linarith)
  refine ⟨fun d d' => cycleFrames_pair W H s d d', hB a, ?_⟩
  rw [hB a, hB a']
  intro heq
  apply hA
  have h1 : (1 : ℚ) - SMOOTH_ALPHA ≠ 0 := by norm_num [SMOOTH_ALPHA]
  exact mul_right_cancel₀ h1 (by linarith)

theorem c10_cross_face_smoothing_witness :
    (processDetection 100 100 (fun _ => none)
        ⟨1/2, 1/2, 1/4, 1/4, none⟩).1 "bx" ≠ none ∧
    (processDetection 100 100
        ((processDetection 100 100 (fun _ => none) ⟨1/2, 1/2, 1/4, 1/4, none⟩).1)
        ⟨1/4, 1/2, 1/4, 1/4, none⟩).2.bx ≠
      (processDetection 100 100
        ((processDetection 100 100 (fun _ => none) ⟨3/4, 1/2, 1/4, 1/4, none⟩).1)
        ⟨1/4, 1/2, 1/4, 1/4, none⟩).2.bx := by
  have h := c10_cross_face_smoothing 100 100 (fun _ => none)
    ⟨1/2, 1/2, 1/4, 1/4, none⟩ ⟨3/4, 1/2, 1/4, 1/4, none⟩
    ⟨1/4, 1/2, 1/4, 1/4, none⟩ (by norm_num) (by norm_num)
  refine ⟨?_, h.2.2⟩
  rw [processDetection_fst_bx]
  simp

/-- C1 counterexample: the grain pass (one of the five pixel passes named
by the claim) changes a border pixel of a 3×3 surface: its per-pixel
loop runs over the whole buffer, border ring included, so the corner
pixel (0,0) of an all-gray surface is modified under a random stream
that yields 3/4. -/
theorem c1_grain_writes_border_counterexample :
    (applyGrain (grayImg 128 3 3) 72 false (fun _ => 3/4)).px 0 0 ≠
      (grayImg 128 3 3).px 0 0 := by
  simp only [applyGrain, grayImg, grainPixel, grainChannel, storeClamp,
    clampQ, roundTiesEven]
  norm_num

/-- C1 amended: only the sketch pass restricts its writes to interior
pixels; for every surface it leaves every pixel of the outermost
1-pixel border ring unchanged (the grain, vignette, glow and watercolor
passes write all pixels, border included). -/
theorem c1_sketch_border_unchanged (img : Img) (sqrtQ : ℚ → ℚ) (x y : ℕ)
    (hw : 3 ≤ img.w) (hh : 3 ≤ img.h)
    (hb : x = 0 ∨ y = 0 ∨ x = img.w - 1 ∨ y = img.h - 1) :
    (applySketch img sqrtQ).px x y = img.px x y := by
  unfold applySketch
  simp only
  rw [if_neg]
  omega

theorem c1_sketch_border_unchanged_witness :
    (applySketch (grayImg 128 3 3) (fun q => q)).px 0 0 =
      (grayImg 128 3 3).px 0 0 :=
  c1_sketch_border_unchanged (grayImg 128 3 3) (fun q => q) 0 0
    (by norm_num [grayImg]) (by norm_num [grayImg]) (Or.inl rfl)

/-- C6 counterexample: in default (non-color-grain) mode the code adds
one shared per-pixel noise value to all three channels, not independent
per-channel noise: on a 1×1 gray surface with the stream (3/4, 1/4,
1/4, ...) the source pass yields equal channels (150,150,150) while
independent per-channel draws as the spec describes yield
(150,106,106). -/
theorem c6_shared_noise_counterexample :
    (applyGrain (grayImg 128 1 1) 44 false
        (fun n => if n = 0 then 3/4 else 1/4)).px 0 0 ≠
      (applyGrainSpecIndependent (grayImg 128 1 1) 44
        (fun n => if n = 0 then 3/4 else 1/4)).px 0 0 := by
  simp only [applyGrain, applyGrainSpecIndependent, grayImg, grainPixel,
    grainChannel, storeClamp, clampQ, roundTiesEven]
  norm_num

/-- C6 amended: in default mode the grain pass adds one shared per-pixel
noise value, lying in [-intensity, +intensity] for random draws in
[0,1), identically to all three channels (so channel-equal pixels stay
channel-equal under every stream); in color-grain mode each channel
additionally receives an independent smaller noise lying in
[-0.3·intensity, +0.3·intensity]; the alpha channel is never touched. -/
theorem c6_grain_noise_structure (img : Img) (intensity : ℚ) (rnd : ℕ → ℚ)
    (cg : Bool) (x y : ℕ) (hx : x < img.w) (hy : y < img.h)
    (hi : 0 ≤ intensity) (hr : ∀ n, 0 ≤ rnd n ∧ rnd n < 1) :
    (-intensity ≤ (rnd (y * img.w + x) - 1/2) * intensity * 2 ∧
      (rnd (y * img.w + x) - 1/2) * intensity * 2 ≤ intensity) ∧
    (((img.px x y).r = (img.px x y).g → (img.px x y).g = (img.px x y).b →
      ((applyGrain img intensity false rnd).px x y).r =
        ((applyGrain img intensity false rnd).px x y).g ∧
      ((applyGrain img intensity false rnd).px x y).g =
        ((applyGrain img intensity false rnd).px x y).b)) ∧
    (∀ j, -((3/10) * intensity) ≤ (rnd j - 1/2) * intensity * (6/10) ∧
      (rnd j - 1/2) * intensity * (6/10) ≤ (3/10) * intensity) ∧
    ((applyGrain img intensity cg rnd).px x y).a = (img.px x y).a := by
  have hbase : ∀ j, -intensity ≤ (rnd j - 1/2) * intensity * 2 ∧
      (rnd j - 1/2) * intensity * 2 ≤ intensity := by
    intro j
    obtain ⟨h0, h1⟩ := hr j
    constructor <;> nlinarith
  refine ⟨hbase _, ?_, ?_, ?_⟩
  · intro hrg hgb
    simp only [applyGrain, hx, hy, and_self, if_true, grainPixel,
      if_false, Bool.false_eq_true]
    rw [hrg, hgb]
    exact ⟨rfl, rfl⟩
  · intro j
    obtain ⟨h0, h1⟩ := hr j
    constructor <;> nlinarith
  · cases cg <;>
      simp [applyGrain, hx, hy, grainPixel]

theorem c6_grain_noise_structure_witness :
    ((applyGrain (grayImg 7 2 2) 10 false (fun _ => 1/2)).px 1 1).r =
      ((applyGrain (grayImg 7 2 2) 10 false (fun _ => 1/2)).px 1 1).g ∧
    ((applyGrain (grayImg 7 2 2) 10 true (fun _ => 1/2)).px 1 1).a =
      ((grayImg 7 2 2).px 1 1).a := by
  have h := c6_grain_noise_structure (grayImg 7 2 2) 10 (fun _ => 1/2) true
    1 1 (by norm_num [grayImg]) (by norm_num [grayImg]) (by norm_num)
    (fun n => by norm_num)
  exact ⟨(h.2.1 rfl rfl).1, h.2.2.2⟩

/-! ## Helper lemmas for the crop computation -/

lemma jsRound_pos {q : ℚ} (h : 1/2 < q) : 0 < jsRound q := by
  have h2 := sub_half_lt_jsRound q
  have h3 : (0 : ℚ) < (jsRound q : ℚ) := by linarith
  exact_mod_cast h3

lemma crop_out_bounds {srcW srcH : ℤ} (hw : 0 < srcW) (hh : 0 < srcH) :
    jsRound ((srcW : ℚ) * cropScale srcW srcH) ≤ 1920 ∧
    jsRound ((srcH : ℚ) * cropScale srcW srcH) ≤ 1920 ∧
    jsRound ((srcW : ℚ) * cropScale srcW srcH) ≤ srcW ∧
    jsRound ((srcH : ℚ) * cropScale srcW srcH) ≤ srcH := by
  have hw' : (0 : ℚ) < (srcW : ℚ) := by exact_mod_cast hw
  have hh' : (0 : ℚ) < (srcH : ℚ) := by exact_mod_cast hh
  have hs1 : cropScale srcW srcH ≤ 1920 / (srcW : ℚ) := min_le_left _ _
  have hs2 : cropScale srcW srcH ≤ 1920 / (srcH : ℚ) :=
    le_trans (min_le_right _ _) (min_le_left _ _)
  have hs3 : cropScale srcW srcH ≤ 1 :=
    le_trans (min_le_right _ _) (min_le_right _ _)
  have h1 : (srcW : ℚ) * cropScale srcW srcH ≤ 1920 :=
    calc (srcW : ℚ) * cropScale srcW srcH
        = cropScale srcW srcH * (srcW : ℚ) := mul_comm _ _
      _ ≤ (1920 / (srcW : ℚ)) * (srcW : ℚ) :=
          mul_le_mul_of_nonneg_right hs1 (le_of_lt hw')
      _ = 1920 := div_mul_cancel₀ _ (ne_of_gt hw')
  have h2 : (srcH : ℚ) * cropScale srcW srcH ≤ 1920 :=
    calc (srcH : ℚ) * cropScale srcW srcH
        = cropScale srcW srcH * (srcH : ℚ) := mul_comm _ _
      _ ≤ (1920 / (srcH : ℚ)) * (srcH : ℚ) :=
          mul_le_mul_of_nonneg_right hs2 (le_of_lt hh')
      _ = 1920 := div_mul_cancel₀ _ (ne_of_gt hh')
  have h3 : (srcW : ℚ) * cropScale srcW srcH ≤ (srcW : ℚ) :=
    mul_le_of_le_one_right (le_of_lt hw') hs3
  have h4 : (srcH : ℚ) * cropScale srcW srcH ≤ (srcH : ℚ) :=
    mul_le_of_le_one_right (le_of_lt hh') hs3
  exact ⟨jsRound_le_of_le (by exact_mod_cast h1),
    jsRound_le_of_le (by exact_mod_cast h2),
    jsRound_le_of_le h3, jsRound_le_of_le h4⟩

lemma abs_le_int_of_rat {z : ℤ} {c : ℚ} (h : |(z : ℚ)| ≤ c) {n : ℤ}
    (hc : c < (n : ℚ) + 1) : |z| ≤ n := by
  have h1 : |(z : ℚ)| < (n : ℚ) + 1 := by linarith
  have h2 : |z| < n + 1 := by exact_mod_cast h1
  omega

/-- C2: the capture crop rectangle matches the 4:3 target aspect within
rounding (|3·srcW - 4·srcH| ≤ 2), keeps the shorter axis full (clipping
only the longer dimension), is centered within rounding, and the output
is the crop scaled by min(1920/srcW, 1920/srcH, 1): neither output
dimension exceeds 1920 and the crop is never upscaled; a 1920×1080
source yields a 1440×1080 output. -/
theorem c2_capture_crop (videoW videoH : ℕ) (hW : 0 < videoW)
    (hH : 0 < videoH) :
    |3 * (captureCrop videoW videoH).srcW -
        4 * (captureCrop videoW videoH).srcH| ≤ 2 ∧
    ((4 : ℚ)/3 < (videoW : ℚ) / (videoH : ℚ) →
      (captureCrop videoW videoH).srcH = (videoH : ℤ) ∧
      (captureCrop videoW videoH).srcY = 0) ∧
    (¬((4 : ℚ)/3 < (videoW : ℚ) / (videoH : ℚ)) →
      (captureCrop videoW videoH).srcW = (videoW : ℤ) ∧
      (captureCrop videoW videoH).srcX = 0) ∧
    |2 * (captureCrop videoW videoH).srcX -
        ((videoW : ℤ) - (captureCrop videoW videoH).srcW)| ≤ 1 ∧
    |2 * (captureCrop videoW videoH).srcY -
        ((videoH : ℤ) - (captureCrop videoW videoH).srcH)| ≤ 1 ∧
    (captureCrop videoW videoH).outW ≤ 1920 ∧
    (captureCrop videoW videoH).outH ≤ 1920 ∧
    (captureCrop videoW videoH).outW ≤ (captureCrop videoW videoH).srcW ∧
    (captureCrop videoW videoH).outH ≤ (captureCrop videoW videoH).srcH ∧
    captureCrop 1920 1080 = ⟨240, 0, 1440, 1080, 1440, 1080⟩ := by
  have hconc : captureCrop 1920 1080 = ⟨240, 0, 1440, 1080, 1440, 1080⟩ := by
    norm_num [captureCrop, cropScale, jsRound]
  have hW1 : (1 : ℚ) ≤ (videoW : ℚ) := by exact_mod_cast hW
  have hH1 : (1 : ℚ) ≤ (videoH : ℚ) := by exact_mod_cast hH
  by_cases hasp : (4 : ℚ)/3 < (videoW : ℚ) / (videoH : ℚ)
  · have hcrop : captureCrop videoW videoH =
        { srcX := jsRound (((videoW : ℚ) -
            ((jsRound ((videoH : ℚ) * ((4 : ℚ) / 3)) : ℤ) : ℚ)) / 2),
          srcY := 0,
          srcW := jsRound ((videoH : ℚ) * ((4 : ℚ) / 3)),
          srcH := (videoH : ℤ),
          outW := jsRound (((jsRound ((videoH : ℚ) * ((4 : ℚ) / 3)) : ℤ) : ℚ) *
            cropScale (jsRound ((videoH : ℚ) * ((4 : ℚ) / 3))) (videoH : ℤ)),
          outH := jsRound (((videoH : ℤ) : ℚ) *
            cropScale (jsRound ((videoH : ℚ) * ((4 : ℚ) / 3))) (videoH : ℤ)) } := by
      simp only [captureCrop, if_pos hasp]
    have hsw : 0 < jsRound ((videoH : ℚ) * ((4 : ℚ) / 3)) :=
      jsRound_pos (by nlinarith)
    have hsh : (0 : ℤ) < (videoH : ℤ) := by exact_mod_cast hH
    have hout := crop_out_bounds hsw hsh
    rw [hcrop]
    refine ⟨?_, fun _ => ⟨rfl, rfl⟩, fun hc => absurd hasp hc, ?_, ?_,
      hout.1, hout.2.1, hout.2.2.1, hout.2.2.2, hconc⟩
    · have habs := abs_jsRound_sub_le ((videoH : ℚ) * ((4 : ℚ) / 3))
      have key : |3 * ((jsRound ((videoH : ℚ) * ((4 : ℚ) / 3)) : ℤ) : ℚ) -
          4 * (videoH : ℚ)| ≤ 3/2 := by
        have he : 3 * ((jsRound ((videoH : ℚ) * ((4 : ℚ) / 3)) : ℤ) : ℚ) -
            4 * (videoH : ℚ) =
            3 * (((jsRound ((videoH : ℚ) * ((4 : ℚ) / 3)) : ℤ) : ℚ) -
              (videoH : ℚ) * ((4 : ℚ) / 3)) := by ring
        rw [he, abs_mul, abs_of_pos (by norm_num : (0 : ℚ) < 3)]
        linarith
      refine abs_le_int_of_rat ?_ (by norm_num : (3/2 : ℚ) < (2 : ℚ) + 1)
      push_cast
      push_cast at key
      convert key using 2
    · have habs := abs_jsRound_sub_le (((videoW : ℚ) -
        ((jsRound ((videoH : ℚ) * ((4 : ℚ) / 3)) : ℤ) : ℚ)) / 2)
      have key : |2 * ((jsRound (((videoW : ℚ) -
          ((jsRound ((videoH : ℚ) * ((4 : ℚ) / 3)) : ℤ) : ℚ)) / 2) : ℤ) : ℚ) -
          ((videoW : ℚ) -
            ((jsRound ((videoH : ℚ) * ((4 : ℚ) / 3)) : ℤ) : ℚ))| ≤ 1 := by
        have he : 2 * ((jsRound (((videoW : ℚ) -
            ((jsRound ((videoH : ℚ) * ((4 : ℚ) / 3)) : ℤ) : ℚ)) / 2) : ℤ) : ℚ) -
            ((videoW : ℚ) -
              ((jsRound ((videoH : ℚ) * ((4 : ℚ) / 3)) : ℤ) : ℚ)) =
            2 * (((jsRound (((videoW : ℚ) -
              ((jsRound ((videoH : ℚ) * ((4 : ℚ) / 3)) : ℤ) : ℚ)) / 2) : ℤ) : ℚ) -
              ((videoW : ℚ) -
                ((jsRound ((videoH : ℚ) * ((4 : ℚ) / 3)) : ℤ) : ℚ)) / 2) := by
          ring
        rw [he, abs_mul, abs_of_pos (by norm_num : (0 : ℚ) < 2)]
        linarith
      refine abs_le_int_of_rat ?_ (by norm_num : (1 : ℚ) < (1 : ℚ) + 1)
      push_cast
      push_cast at key
      convert key using 2
    · simp
  · have hcrop : captureCrop videoW videoH =
        { srcX := 0,
          srcY := jsRound (((videoH : ℚ) -
            ((jsRound ((videoW : ℚ) / ((4 : ℚ) / 3)) : ℤ) : ℚ)) / 2),
          srcW := (videoW : ℤ),
          srcH := jsRound ((videoW : ℚ) / ((4 : ℚ) / 3)),
          outW := jsRound (((videoW : ℤ) : ℚ) *
            cropScale (videoW : ℤ) (jsRound ((videoW : ℚ) / ((4 : ℚ) / 3)))),
          outH := jsRound (((jsRound ((videoW : ℚ) / ((4 : ℚ) / 3)) : ℤ) : ℚ) *
            cropScale (videoW : ℤ) (jsRound ((videoW : ℚ) / ((4 : ℚ) / 3)))) } := by
      simp only [captureCrop, if_neg hasp]
    have hsw : (0 : ℤ) < (videoW : ℤ) := by exact_mod_cast hW
    have hsh : 0 < jsRound ((videoW : ℚ) / ((4 : ℚ) / 3)) :=
      jsRound_pos (by nlinarith)
    have hout := crop_out_bounds hsw hsh
    rw [hcrop]
    refine ⟨?_, fun hc => absurd hc hasp, fun _ => ⟨rfl, rfl⟩, ?_, ?_,
      hout.1, hout.2.1, hout.2.2.1, hout.2.2.2, hconc⟩
    · have habs := abs_jsRound_sub_le ((videoW : ℚ) / ((4 : ℚ) / 3))
      have key : |3 * (videoW : ℚ) -
          4 * ((jsRound ((videoW : ℚ) / ((4 : ℚ) / 3)) : ℤ) : ℚ)| ≤ 2 := by
        have he : 3 * (videoW : ℚ) -
            4 * ((jsRound ((videoW : ℚ) / ((4 : ℚ) / 3)) : ℤ) : ℚ) =
            (-4) * (((jsRound ((videoW : ℚ) / ((4 : ℚ) / 3)) : ℤ) : ℚ) -
              (videoW : ℚ) / ((4 : ℚ) / 3)) := by ring
        rw [he, abs_mul]
        have : |(-4 : ℚ)| = 4 := by norm_num
        rw [this]
        linarith
      refine abs_le_int_of_rat ?_ (by norm_num : (2 : ℚ) < (2 : ℚ) + 1)
      push_cast
      push_cast at key
      convert key using 2
    · simp
    · have habs := abs_jsRound_sub_le (((videoH : ℚ) -
        ((jsRound ((videoW : ℚ) / ((4 : ℚ) / 3)) : ℤ) : ℚ)) / 2)
      have key : |2 * ((jsRound (((videoH : ℚ) -
          ((jsRound ((videoW : ℚ) / ((4 : ℚ) / 3)) : ℤ) : ℚ)) / 2) : ℤ) : ℚ) -
          ((videoH : ℚ) -
            ((jsRound ((videoW : ℚ) / ((4 : ℚ) / 3)) : ℤ) : ℚ))| ≤ 1 := by
        have he : 2 * ((jsRound (((videoH : ℚ) -
            ((jsRound ((videoW : ℚ) / ((4 : ℚ) / 3)) : ℤ) : ℚ)) / 2) : ℤ) : ℚ) -
            ((videoH : ℚ) -
              ((jsRound ((videoW : ℚ) / ((4 : ℚ) / 3)) : ℤ) : ℚ)) =
            2 * (((jsRound (((videoH : ℚ) -
              ((jsRound ((videoW : ℚ) / ((4 : ℚ) / 3)) : ℤ) : ℚ)) / 2) : ℤ) : ℚ) -
              ((videoH : ℚ) -
                ((jsRound ((videoW : ℚ) / ((4 : ℚ) / 3)) : ℤ) : ℚ)) / 2) := by
          ring
        rw [he, abs_mul, abs_of_pos (by norm_num : (0 : ℚ) < 2)]
        linarith
      refine abs_le_int_of_rat ?_ (by norm_num : (1 : ℚ) < (1 : ℚ) + 1)
      push_cast
      push_cast at key
      convert key using 2

theorem c2_capture_crop_witness :
    captureCrop 1920 1080 = ⟨240, 0, 1440, 1080, 1440, 1080⟩ :=
  (c2_capture_crop 1920 1080 (by norm_num) (by norm_num)).2.2.2.2.2.2.2.2.2

/-- C5 counterexample: a throw in the face-decoration drawing step is
swallowed by an inner try/catch, so the capture is NOT aborted: the
result screen is still shown, no error is reported, and the surfaced
composite simply lacks the face layer — a partially composited image is
surfaced, contradicting the claim. -/
theorem c5_swallowed_layer_counterexample :
    (captureImage ⟨1920, 1080, false, true, false, false, true, false,
        false, false, false⟩).shown = true ∧
    (captureImage ⟨1920, 1080, false, true, false, false, true, false,
        false, false, false⟩).failAlert = false ∧
    (captureImage ⟨1920, 1080, false, true, false, false, true, false,
        false, false, false⟩).faceDrawn = false := by
  refine ⟨?_, ?_, ?_⟩ <;> rfl

/-- C5 amended: only a throw in the camera-frame drawing, in the
filter's pixel-pass (when the active filter has one), or in the final
result transfer aborts the whole capture with a generic retryable error
and no result screen; throws in the face-decoration, frame-asset and
caption drawing steps are swallowed and the capture completes with that
layer skipped, surfacing the partially composited image. -/
theorem c5_capture_failure_semantics (e : CaptureEnv)
    (hw : e.videoW ≠ 0) (hh : e.videoH ≠ 0) :
    ((captureImage e).failAlert = true ↔
      (e.cameraThrows = true ∨
        (e.hasApplyFn = true ∧ e.pixelThrows = true) ∨
        e.transferThrows = true)) ∧
    ((captureImage e).shown = true ↔
      ¬(e.cameraThrows = true ∨
        (e.hasApplyFn = true ∧ e.pixelThrows = true) ∨
        e.transferThrows = true)) ∧
    ((captureImage e).shown = true →
      (captureImage e).faceDrawn = !e.faceThrows ∧
      (captureImage e).frameDrawn = (e.frameLoaded && !e.frameThrows) ∧
      (captureImage e).messageDrawn = !e.messageThrows) ∧
    (captureImage e).notReadyAlert = false := by
  obtain ⟨vw, vh, hA, fL, cT, pT, faT, frT, mT, tT, sT⟩ := e
  simp only at hw hh
  unfold captureImage
  rw [if_neg (by simp [hw, hh])]
  cases cT <;> cases pT <;> cases hA <;> cases tT <;> simp

/-- Closed instance of the amended C5 theorem at a concrete environment:
a transfer throw aborts with the retryable error and no result. -/
theorem c5_capture_failure_semantics_witness :
    (captureImage ⟨640, 480, true, true, false, false, false, false,
        false, true, false⟩).failAlert = true ∧
    (captureImage ⟨640, 480, true, true, false, false, false, false,
        false, true, false⟩).shown ≠ true := by
  have h := c5_capture_failure_semantics
    ⟨640, 480, true, true, false, false, false, false, false, true, false⟩
    (by norm_num) (by norm_num)
  refine ⟨h.1.mpr (Or.inr (Or.inr rfl)), ?_⟩
  intro hs
  exact (h.2.1.mp hs) (Or.inr (Or.inr rfl))

/-- C8: the caption block draws nothing when all three message fields
are disabled (the composite is identical to not invoking the caption
step at all), an unparsable date value is silently omitted from the
caption lines (the configuration behaves as if the date field were
disabled), an invalid date as the only enabled field draws no panel,
and the caption block is drawn exactly when at least one enabled
non-empty line survives (text, location, or a date that parses). -/
theorem c8_caption_block (cfg : MessageConfig)
    (parse : String → Option JsDate) (w h : ℕ) :
    (cfg.date.enabled = false → cfg.text.enabled = false →
      cfg.location.enabled = false →
      ∀ (interp : DrawCmd → Img → Img) (img : Img),
        applyCmds interp (drawMessageOnCanvas cfg parse w h) img = img) ∧
    (parse cfg.date.value = none →
      captionLines cfg parse =
        (if hasTextLine cfg then [cfg.text.value] else []) ++
        (if hasLocationLine cfg then [cfg.location.value] else [])) ∧
    (parse cfg.date.value = none → ¬hasTextLine cfg →
      ¬hasLocationLine cfg → drawMessageOnCanvas cfg parse w h = []) ∧
    (drawMessageOnCanvas cfg parse w h ≠ [] ↔
      (hasTextLine cfg ∨ hasLocationLine cfg ∨
        (hasDateLine cfg ∧ ∃ d, parse cfg.date.value = some d))) := by
  refine ⟨?_, ?_, ?_, ?_⟩
  · intro hd ht hl interp img
    have hnone : drawMessageOnCanvas cfg parse w h = [] := by
      unfold drawMessageOnCanvas
      rw [if_pos]
      simp [hasDateLine, hasTextLine, hasLocationLine, hd, ht, hl]
    rw [hnone]
    rfl
  · intro hp
    unfold captionLines
    rw [hp]
    simp
  · intro hp ht hl
    unfold drawMessageOnCanvas
    by_cases hd : hasDateLine cfg
    · rw [if_neg (by simp [hd])]
      simp only
      rw [if_pos]
      unfold captionLines
      rw [hp]
      simp [ht, hl]
    · rw [if_pos (by simp [hd, ht, hl])]
  · unfold drawMessageOnCanvas
    by_cases hd : hasDateLine cfg <;> by_cases ht : hasTextLine cfg <;>
      by_cases hl : hasLocationLine cfg <;>
        cases hp : parse cfg.date.value <;>
          simp [captionLines, hd, ht, hl, hp]

theorem c8_caption_block_witness :
    applyCmds (fun _ i => i)
      (drawMessageOnCanvas
        ⟨⟨false, "2026-02-30x"⟩, ⟨false, "hello"⟩, ⟨false, "Tokyo"⟩⟩
        (fun _ => none) 1440 1080)
      (allBlack 4 4) = allBlack 4 4 ∧
    drawMessageOnCanvas
      ⟨⟨true, "2026-02-30x"⟩, ⟨false, "hello"⟩, ⟨false, "Tokyo"⟩⟩
      (fun _ => none) 1440 1080 = [] := by
  have h1 := c8_caption_block
    ⟨⟨false, "2026-02-30x"⟩, ⟨false, "hello"⟩, ⟨false, "Tokyo"⟩⟩
    (fun _ => none) 1440 1080
  have h2 := c8_caption_block
    ⟨⟨true, "2026-02-30x"⟩, ⟨false, "hello"⟩, ⟨false, "Tokyo"⟩⟩
    (fun _ => none) 1440 1080
  refine ⟨h1.1 rfl rfl rfl (fun _ i => i) (allBlack 4 4), ?_⟩
  refine h2.2.2.1 rfl ?_ ?_
  · intro hc
    exact absurd hc.1 (by norm_num [hasTextLine])
  · intro hc
    exact absurd hc.1 (by norm_num [hasLocationLine])

/-! ## Range-preservation lemmas for the pixel passes -/

lemma grainPixel_inRange (p : Pixel) (i : ℚ) (cg : Bool) (rnd : ℕ → ℚ)
    (k : ℕ) (ha0 : 0 ≤ p.a) (ha1 : p.a ≤ 255) :
    pixInRange (grainPixel p i cg rnd k) := by
  cases cg <;>
    exact ⟨storeClamp_nonneg _, storeClamp_le _, storeClamp_nonneg _,
      storeClamp_le _, storeClamp_nonneg _, storeClamp_le _, ha0, ha1⟩

lemma applyGrain_inRange {img : Img} (i : ℚ) (cg : Bool) (rnd : ℕ → ℚ)
    (h : imgInRange img) : imgInRange (applyGrain img i cg rnd) := by
  intro x y
  unfold applyGrain
  dsimp only
  split_ifs with hxy
  · exact grainPixel_inRange _ _ _ _ _ (h x y).2.2.2.2.2.2.1
      (h x y).2.2.2.2.2.2.2
  · exact h x y

lemma vignettePixel_inRange (p : Pixel) (alpha : ℚ) :
    pixInRange (vignettePixel p alpha) :=
  ⟨storeClamp_nonneg _, storeClamp_le _, storeClamp_nonneg _,
   storeClamp_le _, storeClamp_nonneg _, storeClamp_le _,
   storeClamp_nonneg _, storeClamp_le _⟩

lemma applyVignette_inRange {img : Img} (strength : ℚ) (sqrtQ : ℚ → ℚ)
    (h : imgInRange img) : imgInRange (applyVignette img strength sqrtQ) := by
  intro x y
  unfold applyVignette
  dsimp only
  split_ifs with hxy
  · exact vignettePixel_inRange _ _
  · exact h x y

lemma glowLayer_inRange {img : Img} (src : Img) (galpha : ℚ)
    (h : imgInRange img) : imgInRange (glowLayer img src galpha) := by
  intro x y
  unfold glowLayer
  dsimp only
  split_ifs with hxy
  · exact ⟨storeClamp_nonneg _, storeClamp_le _, storeClamp_nonneg _,
      storeClamp_le _, storeClamp_nonneg _, storeClamp_le _,
      storeClamp_nonneg _, storeClamp_le _⟩
  · exact h x y

lemma applyGlow_inRange {img : Img} (b1 b2 b3 : Img → Img)
    (h : imgInRange img) : imgInRange (applyGlow img b1 b2 b3) :=
  glowLayer_inRange _ _ (glowLayer_inRange _ _ (glowLayer_inRange _ _ h))

lemma wcPixel_inRange (p : Pixel) (ha0 : 0 ≤ p.a) (ha1 : p.a ≤ 255) :
    pixInRange (wcPixel p) := by
  have hlo : ∀ n : ℤ, (0 : ℤ) ≤ max 0 n := fun n => le_max_left 0 n
  have hhi : ∀ n : ℤ, max 0 (min 255 n) ≤ 255 := fun n =>
    max_le (by norm_num) (min_le_left 255 n)
  exact ⟨hlo _, hhi _, hlo _, hhi _, hlo _, hhi _, ha0, ha1⟩

lemma applyWatercolor_inRange {img : Img} {blur5 : Img → Img}
    (rnd : ℕ → ℚ) (hb : ∀ j, imgInRange (blur5 j)) :
    imgInRange (applyWatercolor img blur5 rnd) := by
  unfold applyWatercolor
  apply applyGrain_inRange
  intro x y
  dsimp only
  split_ifs with hxy
  · exact wcPixel_inRange _ (hb img x y).2.2.2.2.2.2.1
      (hb img x y).2.2.2.2.2.2.2
  · exact hb img x y

lemma applySketch_inRange {img : Img} (sqrtQ : ℚ → ℚ)
    (h : imgInRange img) : imgInRange (applySketch img sqrtQ) := by
  intro x y
  unfold applySketch
  dsimp only
  split_ifs with hxy
  · exact ⟨storeClamp_nonneg _, storeClamp_le _, storeClamp_nonneg _,
      storeClamp_le _, storeClamp_nonneg _, storeClamp_le _,
      (h x y).2.2.2.2.2.2.1, (h x y).2.2.2.2.2.2.2⟩
  · exact h x y

/-- C7: running every pixel pass twice on an all-black or all-white
surface keeps every channel of every pixel within [0, 255]: every value
the passes write goes through the Uint8ClampedArray store (or an
explicit min/max clamp), and untouched pixels keep their in-range input
values.  The canvas blur primitive used by watercolor enters as a
parameter that, as a canvas surface, yields in-range pixels. -/
theorem c7_double_pass_in_range (w h : ℕ) (intensity strength : ℚ)
    (cg : Bool) (rA rB : ℕ → ℚ) (sqrtQ : ℚ → ℚ)
    (blur5 b1 b2 b3 : Img → Img)
    (hblur : ∀ j, imgInRange (blur5 j)) :
    (imgInRange (applyGrain (applyGrain (allBlack w h) intensity cg rA)
        intensity cg rB) ∧
     imgInRange (applyGrain (applyGrain (allWhite w h) intensity cg rA)
        intensity cg rB)) ∧
    (imgInRange (applyVignette (applyVignette (allBlack w h) strength sqrtQ)
        strength sqrtQ) ∧
     imgInRange (applyVignette (applyVignette (allWhite w h) strength sqrtQ)
        strength sqrtQ)) ∧
    (imgInRange (applyGlow (applyGlow (allBlack w h) b1 b2 b3) b1 b2 b3) ∧
     imgInRange (applyGlow (applyGlow (allWhite w h) b1 b2 b3) b1 b2 b3)) ∧
    (imgInRange (applyWatercolor (applyWatercolor (allBlack w h) blur5 rA)
        blur5 rB) ∧
     imgInRange (applyWatercolor (applyWatercolor (allWhite w h) blur5 rA)
        blur5 rB)) ∧
    (imgInRange (applySketch (applySketch (allBlack w h) sqrtQ) sqrtQ) ∧
     imgInRange (applySketch (applySketch (allWhite w h) sqrtQ) sqrtQ)) := by
  have hB : imgInRange (allBlack w h) :=
    grayImg_inRange (by norm_num) (by norm_num) w h
  have hWt : imgInRange (allWhite w h) :=
    grayImg_inRange (by norm_num) (by norm_num) w h
  exact ⟨⟨applyGrain_inRange _ _ _ (applyGrain_inRange _ _ _ hB),
      applyGrain_inRange _ _ _ (applyGrain_inRange _ _ _ hWt)⟩,
    ⟨applyVignette_inRange _ _ (applyVignette_inRange _ _ hB),
      applyVignette_inRange _ _ (applyVignette_inRange _ _ hWt)⟩,
    ⟨applyGlow_inRange _ _ _ (applyGlow_inRange _ _ _ hB),
      applyGlow_inRange _ _ _ (applyGlow_inRange _ _ _ hWt)⟩,
    ⟨applyWatercolor_inRange _ hblur, applyWatercolor_inRange _ hblur⟩,
    ⟨applySketch_inRange _ (applySketch_inRange _ hB),
      applySketch_inRange _ (applySketch_inRange _ hWt)⟩⟩

theorem c7_double_pass_in_range_witness :
    imgInRange (applyGrain (applyGrain (allBlack 3 3) 72 false
        (fun _ => 1/2)) 72 false (fun _ => 1/2)) ∧
    imgInRange (applyWatercolor (applyWatercolor (allWhite 3 3)
        (fun _ => allBlack 1 1) (fun _ => 1/2))
        (fun _ => allBlack 1 1) (fun _ => 1/2)) := by
  have h := c7_double_pass_in_range 3 3 72 0 false (fun _ => 1/2)
    (fun _ => 1/2) (fun _ => 1/2) (fun _ => allBlack 1 1)
    (fun j => j) (fun j => j) (fun j => j)
    (fun _ => grayImg_inRange (by norm_num) (by norm_num) 1 1)
  exact ⟨h.1.1, h.2.2.2.1.2⟩

end ShinagawaAR
